import Mathlib

set_option linter.unusedVariables false

/-!
Shallow embedding of the rule-based fallback chart agent
(`backend/app/agents/fallback_agent.py`) and the renderer's smart-sampling
policy (`backend/app/services/chart_generator.py`), together with theorems
settling the specification claims about them.

Python floats are modelled as rationals; the regex `re.findall` scan for the
key=value pattern is modelled by a deterministic character scanner that is
provably equivalent to the backtracking search for this particular pattern
(see the comments at `tryMatchKV`).
-/

/-- Character class `[a-zA-Z0-9\s\-\/]` of the key=value label capture. -/
def isLabelChar (c : Char) : Bool :=
  c.isAlpha || c.isDigit || c.isWhitespace || c == '-' || c == '/'

/-- Word characters `\w` used for the regex `\b` word-boundary test. -/
def isWordChar (c : Char) : Bool :=
  c.isAlpha || c.isDigit || c == '_'

/-- The value capture `([0-9]+\.?[0-9]*)` of the key=value pattern: one or
more digits, then an optional dot followed by further digits.  Returns the
matched characters and the rest of the input. -/
def numToken (l : List Char) : Option (List Char × List Char) :=
  let ds := l.takeWhile Char.isDigit
  if ds.isEmpty then none
  else
    match l.dropWhile Char.isDigit with
    | '.' :: r2 => some (ds ++ '.' :: r2.takeWhile Char.isDigit, r2.dropWhile Char.isDigit)
    | r1 => some (ds, r1)

/-- One attempted match of `([a-zA-Z0-9\s\-\/]+)\s*[=:]\s*([0-9]+\.?[0-9]*)`
at the head of the input.  Because the whitespace class is contained in the
label class and `=`/`:` are in neither, the greedy backtracking match
succeeds iff the maximal label-character run is nonempty and is immediately
followed by `=` or `:`, then optional whitespace, then a number token — so
the scan is deterministic. -/
def tryMatchKV (l : List Char) : Option ((String × String) × List Char) :=
  let lab := l.takeWhile isLabelChar
  if lab.isEmpty then none
  else
    match l.dropWhile isLabelChar with
    | c :: rest =>
      if c == '=' || c == ':' then
        match numToken (rest.dropWhile Char.isWhitespace) with
        | some (num, rem) => some ((lab.asString, num.asString), rem)
        | none => none
      else none
    | [] => none

/-- Scan for all non-overlapping key=value matches, left to right, advancing
one character past a failed position (`re.findall` semantics).  Each
recursive call consumes at least one character, so fuel equal to the input
length is never exhausted. -/
def findPairsGo : Nat → List Char → List (String × String)
  | 0, _ => []
  | _, [] => []
  | fuel + 1, c :: rest =>
    match tryMatchKV (c :: rest) with
    | some (p, rem) => p :: findPairsGo fuel rem
    | none => findPairsGo fuel rest

/-- `re.findall(pattern, message)` for the key=value pattern. -/
def re_findall_kv (s : String) : List (String × String) :=
  findPairsGo s.length s.toList

/-- Decimal digits to a natural number. -/
def digitsToNat (l : List Char) : Nat :=
  l.foldl (fun a c => a * 10 + (c.toNat - '0'.toNat)) 0

/-- Python `float(...)` on a string of shape `digits(.digits)?` as produced
by the value capture; modelled exactly as a rational. -/
def parseFloatQ (s : String) : ℚ :=
  let l := s.toList
  let intPart := l.takeWhile Char.isDigit
  match l.dropWhile Char.isDigit with
  | '.' :: frac =>
    mkRat (digitsToNat intPart * 10 ^ (frac.takeWhile Char.isDigit).length
            + digitsToNat (frac.takeWhile Char.isDigit))
          (10 ^ (frac.takeWhile Char.isDigit).length)
  | _ => (digitsToNat intPart : ℚ)

/-- Python `str.lower()` (ASCII), modelled character by character. -/
def toLowerStr (s : String) : String :=
  (s.toList.map Char.toLower).asString

/-- Python `str.strip()`: drop leading and trailing whitespace. -/
def pyStrip (s : String) : String :=
  (((s.toList.dropWhile Char.isWhitespace).reverse.dropWhile Char.isWhitespace).reverse).asString

/-- Python `' '.join(labels)`. -/
def joinSpace : List String → String
  | [] => ""
  | [s] => s
  | s :: rest => s ++ " " ++ joinSpace rest

/-- Whether `needle` occurs as a contiguous sublist of `hay`. -/
def containsSubList (needle : List Char) : List Char → Bool
  | [] => needle.isEmpty
  | c :: rest => needle.isPrefixOf (c :: rest) || containsSubList needle rest

/-- Python substring containment `needle in hay`. -/
def containsSub (needle hay : String) : Bool :=
  containsSubList needle.toList hay.toList

/-- `self.bar_keywords` from `FallbackChartAgent.__init__`. -/
def bar_keywords : List String :=
  ["bar chart", "bar graph", "bar", "compare", "comparison", "versus"]

/-- `self.line_keywords`. -/
def line_keywords : List String :=
  ["line chart", "line graph", "line", "trend", "over time", "timeline"]

/-- `self.bnr_keywords`. -/
def bnr_keywords : List String :=
  ["bnr", "yellow", "news", "radio", "broadcast"]

/-- `self.fd_keywords`. -/
def fd_keywords : List String :=
  ["fd", "teal", "financial", "financieele dagblad"]

/-- `self.style_change_keywords`. -/
def style_change_keywords : List String :=
  ["change color", "change style", "use", "in", "colors", "style", "make it"]

/-- `self.refusal_keywords`. -/
def refusal_keywords : List String :=
  ["weather", "essay", "joke", "homework", "write", "story", "code",
   "program", "calculate", "what is", "help me with", "pie chart",
   "scatter plot", "histogram"]

/-- Back-reference cue words checked in `analyze`. -/
def backref_keywords : List String :=
  ["previous", "same", "earlier", "last", "that"]

/-- A token of a regex alternative: a literal character or `\d`. -/
inductive PTok where
  | lit : Char → PTok
  | dig : PTok

/-- Whether a pattern token matches a character. -/
def ptokMatches : PTok → Char → Bool
  | .lit c, d => c == d
  | .dig, d => d.isDigit

/-- A literal word as a token pattern. -/
def litPat (s : String) : List PTok :=
  s.toList.map PTok.lit

/-- Match a token pattern at the head of the text, returning the rest. -/
def matchPat : List PTok → List Char → Option (List Char)
  | [], rest => some rest
  | _ :: _, [] => none
  | t :: ts, c :: rest => if ptokMatches t c then matchPat ts rest else none

/-- Pattern match at the current position with a trailing `\b`: the
character after the match (if any) must not be a word character. -/
def patAtBoundary (p : List PTok) (text : List Char) : Bool :=
  match matchPat p text with
  | some [] => true
  | some (c :: _) => !isWordChar c
  | none => false

/-- `re.search(r'\b<p>\b', text)`: try the pattern at every position whose
preceding character (tracked in `prevWord`) is not a word character. -/
def searchBounded (p : List PTok) (prevWord : Bool) (text : List Char) : Bool :=
  ((!prevWord) && patAtBoundary p text) ||
  (match text with
   | [] => false
   | c :: rest => searchBounded p (isWordChar c) rest)

/-- Search for any alternative of a `\b(a|b|...)\b` pattern. -/
def searchAnyBounded (alts : List (List PTok)) (text : List Char) : Bool :=
  alts.any (fun p => searchBounded p false text)

/-- Month abbreviations of `self.time_patterns[0]`. -/
def month_abbrevs : List String :=
  ["jan", "feb", "mar", "apr", "may", "jun", "jul", "aug", "sep", "oct", "nov", "dec"]

/-- Full month names of `self.time_patterns[1]`. -/
def month_names : List String :=
  ["january", "february", "march", "april", "may", "june", "july", "august",
   "september", "october", "november", "december"]

/-- Quarters of `self.time_patterns[2]`. -/
def quarter_toks : List String :=
  ["q1", "q2", "q3", "q4"]

/-- `\b(20\d{2})\b` of `self.time_patterns[3]` (years 2000-2099 only). -/
def year_pat : List PTok :=
  [.lit '2', .lit '0', .dig, .dig]

/-- Weekday abbreviations of `self.time_patterns[4]`. -/
def weekday_abbrevs : List String :=
  ["mon", "tue", "wed", "thu", "fri", "sat", "sun"]

/-- Full weekday names of `self.time_patterns[5]`. -/
def weekday_names : List String :=
  ["monday", "tuesday", "wednesday", "thursday", "friday", "saturday", "sunday"]

/-- Temporal nouns of `self.time_patterns[6]`. -/
def temporal_nouns : List String :=
  ["week", "month", "quarter", "year"]

/-- `self.time_patterns`: each entry is one `\b(...)\b` alternation. -/
def time_patterns : List (List (List PTok)) :=
  [month_abbrevs.map litPat, month_names.map litPat, quarter_toks.map litPat,
   [year_pat], weekday_abbrevs.map litPat, weekday_names.map litPat,
   temporal_nouns.map litPat]

/-- `re.match(r'^(q|Q)[1-4]$', label)` (anchored both ends by the check
structure in `_is_time_series`). -/
def qLabelMatch (s : String) : Bool :=
  match s.toList with
  | [q, d] => (q == 'q' || q == 'Q') && (d == '1' || d == '2' || d == '3' || d == '4')
  | _ => false

/-- `re.match(r'^(20\d{2})$', label)`. -/
def yearLabelMatch (s : String) : Bool :=
  match s.toList with
  | ['2', '0', a, b] => a.isDigit && b.isDigit
  | _ => false

/-- `FallbackChartAgent._is_time_series`: the combined lowercased label text
matches a time pattern, or every trimmed label is a quarter, or every
trimmed label is a 20xx year.  (Python `all` over an empty list is true.) -/
def is_time_series (x_labels : List String) : Bool :=
  let combined := toLowerStr (joinSpace x_labels)
  time_patterns.any (fun alts => searchAnyBounded alts combined.toList) ||
  x_labels.all (fun label => qLabelMatch (pyStrip label)) ||
  x_labels.all (fun label => yearLabelMatch (pyStrip label))

/-- `FallbackChartAgent._extract_data_pairs`: all key=value matches; at
least two are required; labels are stripped and values parsed as floats
(the value capture always parses, so the `ValueError` branch is dead). -/
def extract_data_pairs (message : String) : Option (List String × List ℚ) :=
  if (re_findall_kv message).length < 2 then none
  else some ((re_findall_kv message).map (fun m => pyStrip m.1),
             (re_findall_kv message).map (fun m => parseFloatQ m.2))

/-- `FallbackChartAgent._detect_chart_type`: explicit bar keywords, then
explicit line keywords, then time-series data, then the ten-point rule,
else bar. -/
def detect_chart_type (message : String) (x_labels : List String) : String :=
  let message_lower := toLowerStr message
  if bar_keywords.any (fun k => containsSub k message_lower) then "bar"
  else if line_keywords.any (fun k => containsSub k message_lower) then "line"
  else if is_time_series x_labels then "line"
  else if 10 ≤ x_labels.length then "line"
  else "bar"

/-- `FallbackChartAgent._detect_color_scheme` (the label argument is unused
in the source as well). -/
def detect_color_scheme (message : String) (x_labels : List String) : Option String :=
  let message_lower := toLowerStr message
  if bnr_keywords.any (fun k => containsSub k message_lower) then some "bnr"
  else if fd_keywords.any (fun k => containsSub k message_lower) then some "fd"
  else none

/-- `FallbackChartAgent._is_style_change_request`. -/
def is_style_change_request (message : String) : Bool :=
  let message_lower := toLowerStr message
  let has_style_keyword := style_change_keywords.any (fun k => containsSub k message_lower)
  let has_color_keyword := (bnr_keywords ++ fd_keywords).any (fun k => containsSub k message_lower)
  let has_data := (extract_data_pairs message).isSome
  has_style_keyword && has_color_keyword && !has_data

/-- `FallbackChartAgent._should_refuse`. -/
def should_refuse (message : String) : Bool :=
  refusal_keywords.any (fun k => containsSub k (toLowerStr message))

/-- Python `str.title()` restricted to the single lowercase words "bar" and
"line" produced by `detect_chart_type`: capitalize the first character. -/
def pyTitle (s : String) : String :=
  match s.toList with
  | [] => ""
  | c :: r => (c.toUpper :: r).asString

/-- `FallbackChartAgent._generate_title`. -/
def generate_title (chart_type : String) (x_labels : List String) : String :=
  if is_time_series x_labels then pyTitle chart_type ++ " Chart Over Time"
  else pyTitle chart_type ++ " Chart Comparison"

/-- The chart-related keys of an assistant turn's metadata dict; `none`
fields model absent keys. -/
structure ChartMeta where
  x_labels : Option (List String)
  y_values : Option (List ℚ)
deriving DecidableEq

/-- One conversation turn; `metadata = none` models a missing or empty
(falsy) metadata dict. -/
structure Turn where
  role : String
  content : String
  metadata : Option ChartMeta
deriving DecidableEq

/-- First loop of `_get_previous_chart_data` applied to the reversed
history: first assistant turn whose metadata has both keys. -/
def findPrevAssistantMeta : List Turn → Option (List String × List ℚ)
  | [] => none
  | t :: rest =>
    if t.role = "assistant" then
      match t.metadata with
      | some m =>
        match m.x_labels, m.y_values with
        | some xs, some ys => some (xs, ys)
        | _, _ => findPrevAssistantMeta rest
      | none => findPrevAssistantMeta rest
    else findPrevAssistantMeta rest

/-- Second loop of `_get_previous_chart_data`: first user turn whose content
re-extracts successfully. -/
def findPrevUserData : List Turn → Option (List String × List ℚ)
  | [] => none
  | t :: rest =>
    if t.role = "user" then
      match extract_data_pairs t.content with
      | some d => some d
      | none => findPrevUserData rest
    else findPrevUserData rest

/-- `FallbackChartAgent._get_previous_chart_data`. -/
def get_previous_chart_data (history : List Turn) : Option (List String × List ℚ) :=
  if history.isEmpty then none
  else
    match findPrevAssistantMeta history.reverse with
    | some d => some d
    | none => findPrevUserData history.reverse

/-- The `ChartData` pydantic model (`backend/app/models/schemas.py`). -/
structure ChartData where
  is_valid : Bool
  reason : Option String
  chart_type : Option String
  title : Option String
  x_label : Option String
  y_label : Option String
  x_labels : Option (List String)
  y_values : Option (List ℚ)
  color_scheme : Option String
deriving DecidableEq

/-- A refusal `ChartData(is_valid=False, reason=...)`; all other fields keep
their pydantic default `None`. -/
def refusalData (r : String) : ChartData :=
  { is_valid := false, reason := some r, chart_type := none, title := none,
    x_label := none, y_label := none, x_labels := none, y_values := none,
    color_scheme := none }

/-- The valid decision built on the style-change path of `analyze`
(lines 204-213): axis label keyed by the detected chart type. -/
def mkStyleDecision (msg : String) (xs : List String) (ys : List ℚ) : ChartData :=
  let chart_type := detect_chart_type msg xs
  { is_valid := true, reason := none,
    chart_type := some chart_type,
    title := some (generate_title chart_type xs),
    x_label := some (if chart_type = "bar" then "Category" else "Time"),
    y_label := some "Value",
    x_labels := some xs, y_values := some ys,
    color_scheme := detect_color_scheme msg xs }

/-- The valid decision built on the direct-extraction path of `analyze`
(lines 240-260): axis label keyed by `_is_time_series`. -/
def mkDirectDecision (msg : String) (xs : List String) (ys : List ℚ) : ChartData :=
  let chart_type := detect_chart_type msg xs
  { is_valid := true, reason := none,
    chart_type := some chart_type,
    title := some (generate_title chart_type xs),
    x_label := some (if is_time_series xs then "Time" else "Category"),
    y_label := some "Value",
    x_labels := some xs, y_values := some ys,
    color_scheme := detect_color_scheme msg xs }

/-- The condition `conversation_history and any(keyword in user_message.lower()
for keyword in ['previous','same','earlier','last','that'])` of `analyze`. -/
def wants_previous (user_message : String) (conversation_history : List Turn) : Bool :=
  !conversation_history.isEmpty
    && backref_keywords.any (fun k => containsSub k (toLowerStr user_message))

/-- `FallbackChartAgent.analyze`.  The surrounding `try/except` cannot fire:
every helper is total here, so the except branch is unreachable and the
function is total by construction. -/
def analyze (user_message : String) (conversation_history : List Turn) : ChartData :=
  if should_refuse user_message then
    refusalData "I can only help you create bar or line charts. Please ask me to make a chart with some data!"
  else if is_style_change_request user_message then
    match get_previous_chart_data conversation_history with
    | some (xs, ys) => mkStyleDecision user_message xs ys
    | none =>
      refusalData "I couldn't find previous chart data to apply the new style to. Please provide the data again."
  else
    match extract_data_pairs user_message with
    | some (xs, ys) => mkDirectDecision user_message xs ys
    | none =>
      if wants_previous user_message conversation_history then
        match get_previous_chart_data conversation_history with
        | some (xs, ys) => mkDirectDecision user_message xs ys
        | none =>
          refusalData "I couldn't find previous chart data. Please provide the data points."
      else
        refusalData "I couldn't find any data to chart. Please provide data in format like: A=10, B=20, C=30"

/-- The `while current < n - 1` loop of `ChartGenerator._smart_sample_labels`.
The step is at least one at every call site, so fuel `n` is never
exhausted. -/
def sampleLoopGo : Nat → Nat → Nat → Nat → List Nat
  | 0, _, _, _ => []
  | fuel + 1, n, step, current =>
    if current < n - 1 then current :: sampleLoopGo fuel n step (current + step) else []

/-- `ChartGenerator._smart_sample_labels`.  (With `max_points = 0` the
Python source raises `ZeroDivisionError`; all theorems below therefore
assume a positive cap, matching the call site's `max_points=30`.) -/
def smart_sample_labels (x_labels : List String) (y_values : List ℚ)
    (max_points : Nat) : List String × List ℚ × List Nat :=
  let n := x_labels.length
  if n ≤ max_points then (x_labels, y_values, List.range n)
  else
    let step := max 1 (n / max_points)
    let inter := sampleLoopGo n n step step
    let indices1 := 0 :: inter
    let indices := if indices1.getLastD 0 ≠ n - 1 then indices1 ++ [n - 1] else indices1
    (indices.map (fun i => x_labels.getD i ""),
     indices.map (fun i => y_values.getD i 0),
     indices)

/-- Modelled from the spec: `bnrKeywords` of the specification's pattern
library table (the source file keeps a shorter list). -/
def spec_bnr_keywords : List String :=
  ["bnr", "yellow", "news", "radio", "broadcast", "media", "social",
   "entertainment", "lifestyle", "news radio", "broadcasting"]

/-- Modelled from the spec: `fdKeywords` of the specification's pattern
library table. -/
def spec_fd_keywords : List String :=
  ["fd", "teal", "financial", "market", "investment", "economy", "business",
   "corporate", "revenue", "profit", "financieele dagblad"]

/-- Modelled from the spec: the Color-Scheme Classifier rule of the
specification, over the specification's keyword tables. -/
def spec_detect_color_scheme (message : String) : Option String :=
  let message_lower := toLowerStr message
  if spec_bnr_keywords.any (fun k => containsSub k message_lower) then some "bnr"
  else if spec_fd_keywords.any (fun k => containsSub k message_lower) then some "fd"
  else none

/-- Modelled from the spec: the claim's year clause `^(20|19)\d{2}$`. -/
def spec_year_label_match (s : String) : Bool :=
  match s.toList with
  | [a, b, c, d] =>
    ((a == '2' && b == '0') || (a == '1' && b == '9')) && c.isDigit && d.isDigit
  | _ => false

/-! ## Helper lemmas -/

/-- Exhaustive description of the outcomes of `analyze`: every run returns
either a refusal, a style-change decision backed by recovered previous data,
or a direct decision backed by extraction or recovered previous data. -/
theorem analyze_cases (msg : String) (hist : List Turn) :
    (∃ r, analyze msg hist = refusalData r) ∨
    (∃ xs ys, is_style_change_request msg = true ∧
      get_previous_chart_data hist = some (xs, ys) ∧
      analyze msg hist = mkStyleDecision msg xs ys) ∨
    (∃ xs ys, is_style_change_request msg = false ∧
      (extract_data_pairs msg = some (xs, ys) ∨ get_previous_chart_data hist = some (xs, ys)) ∧
      analyze msg hist = mkDirectDecision msg xs ys) := by
  cases h1 : should_refuse msg with
  | true =>
    exact Or.inl ⟨"I can only help you create bar or line charts. Please ask me to make a chart with some data!",
      by simp [analyze, h1]⟩
  | false =>
    cases h2 : is_style_change_request msg with
    | true =>
      cases h3 : get_previous_chart_data hist with
      | none =>
        exact Or.inl ⟨"I couldn't find previous chart data to apply the new style to. Please provide the data again.",
          by simp [analyze, h1, h2, h3]⟩
      | some d =>
        obtain ⟨xs, ys⟩ := d
        exact Or.inr (Or.inl ⟨xs, ys, rfl, rfl, by simp [analyze, h1, h2, h3]⟩)
    | false =>
      cases h4 : extract_data_pairs msg with
      | some d =>
        obtain ⟨xs, ys⟩ := d
        exact Or.inr (Or.inr ⟨xs, ys, rfl, Or.inl rfl, by simp [analyze, h1, h2, h4]⟩)
      | none =>
        cases h5 : wants_previous msg hist with
        | false =>
          exact Or.inl ⟨"I couldn't find any data to chart. Please provide data in format like: A=10, B=20, C=30",
            by simp [analyze, h1, h2, h4, h5]⟩
        | true =>
          cases h6 : get_previous_chart_data hist with
          | none =>
            exact Or.inl ⟨"I couldn't find previous chart data. Please provide the data points.",
              by simp [analyze, h1, h2, h4, h5, h6]⟩
          | some d =>
            obtain ⟨xs, ys⟩ := d
            exact Or.inr (Or.inr ⟨xs, ys, rfl, Or.inr rfl,
              by simp [analyze, h1, h2, h4, h5, h6]⟩)

/-- The two lists produced by a successful extraction have equal length:
both are images of the same match list. -/
theorem extract_data_pairs_length (m : String) (xs : List String) (ys : List ℚ)
    (h : extract_data_pairs m = some (xs, ys)) : xs.length = ys.length := by
  unfold extract_data_pairs at h
  split at h
  · exact absurd h (by simp)
  · simp only [Option.some.injEq, Prod.mk.injEq] at h
    obtain ⟨hx, hy⟩ := h
    rw [hx.symm, hy.symm]
    simp

/-- The user-turn rescue loop only returns re-extracted data, so its lists
have equal length. -/
theorem findPrevUserData_length (l : List Turn) (xs : List String) (ys : List ℚ)
    (h : findPrevUserData l = some (xs, ys)) : xs.length = ys.length := by
  induction l with
  | nil => simp [findPrevUserData] at h
  | cons t rest ih =>
    unfold findPrevUserData at h
    split at h
    · split at h
      · rename_i d hd
        obtain ⟨a, b⟩ := d
        simp only [Option.some.injEq, Prod.mk.injEq] at h
        obtain ⟨ha, hb⟩ := h
        subst ha; subst hb
        exact extract_data_pairs_length _ _ _ hd
      · exact ih h
    · exact ih h

/-- If every assistant turn with both metadata keys stores equally long
lists, the assistant-metadata loop returns equally long lists. -/
theorem findPrevAssistantMeta_length (l : List Turn)
    (hm : ∀ t ∈ l, ∀ m, t.metadata = some m → ∀ xs ys,
      m.x_labels = some xs → m.y_values = some ys → xs.length = ys.length)
    (xs : List String) (ys : List ℚ)
    (h : findPrevAssistantMeta l = some (xs, ys)) : xs.length = ys.length := by
  induction l with
  | nil => simp [findPrevAssistantMeta] at h
  | cons t rest ih =>
    have hrest : ∀ t' ∈ rest, ∀ m, t'.metadata = some m → ∀ xs' ys',
        m.x_labels = some xs' → m.y_values = some ys' → xs'.length = ys'.length :=
      fun t' ht' => hm t' (List.mem_cons_of_mem _ ht')
    rw [findPrevAssistantMeta] at h
    by_cases hrole : t.role = "assistant"
    · rw [if_pos hrole] at h
      cases hmeta : t.metadata with
      | none =>
        simp only [hmeta] at h
        exact ih hrest h
      | some m =>
        simp only [hmeta] at h
        cases hx : m.x_labels with
        | none =>
          simp only [hx] at h
          exact ih hrest h
        | some xs' =>
          cases hy : m.y_values with
          | none =>
            simp only [hx, hy] at h
            exact ih hrest h
          | some ys' =>
            simp only [hx, hy, Option.some.injEq, Prod.mk.injEq] at h
            obtain ⟨ha, hb⟩ := h
            subst ha; subst hb
            exact hm t (List.mem_cons_self t rest) m hmeta _ _ hx hy
    · rw [if_neg hrole] at h
      exact ih hrest h

/-- Under the same metadata assumption, the conversation resolver returns
equally long lists. -/
theorem get_previous_chart_data_length (hist : List Turn)
    (hm : ∀ t ∈ hist, ∀ m, t.metadata = some m → ∀ xs ys,
      m.x_labels = some xs → m.y_values = some ys → xs.length = ys.length)
    (xs : List String) (ys : List ℚ)
    (h : get_previous_chart_data hist = some (xs, ys)) : xs.length = ys.length := by
  unfold get_previous_chart_data at h
  split at h
  · exact absurd h (by simp)
  · split at h
    · rename_i d hd
      obtain ⟨a, b⟩ := d
      simp only [Option.some.injEq, Prod.mk.injEq] at h
      obtain ⟨ha, hb⟩ := h
      subst ha; subst hb
      refine findPrevAssistantMeta_length hist.reverse ?_ _ _ hd
      intro t ht
      exact hm t (List.mem_reverse.mp ht)
    · exact findPrevUserData_length _ _ _ h

/-! ## Claim C1: explicit-priority law -/

/-- Claim C1 counterexample: the message "compare the trend" contains none
of the claim's explicit bar keywords but does contain the explicit line
keyword "trend"; the claim therefore predicts `line`, yet the classifier
returns `bar` (the source's `bar_keywords` also holds "compare",
"comparison" and "versus", which are checked first). -/
theorem explicit_priority_cex :
    (["bar chart", "bar graph", "bar"].any
        (fun k => containsSub k (toLowerStr "compare the trend"))) = false ∧
    (["line chart", "line graph", "line", "trend", "over time", "timeline"].any
        (fun k => containsSub k (toLowerStr "compare the trend"))) = true ∧
    detect_chart_type "compare the trend" ["Alpha"] = "bar" := by
  decide

/-- Claim C1 (amended): the explicit-priority law holds for the source's
keyword lists: any `bar_keywords` hit (the claim's three explicit bar
keywords plus "compare", "comparison", "versus") yields `bar` regardless of
the labels, and otherwise any `line_keywords` hit yields `line` regardless
of the labels. -/
theorem explicit_priority_amended (message : String) (x_labels : List String) :
    (bar_keywords.any (fun k => containsSub k (toLowerStr message)) = true →
      detect_chart_type message x_labels = "bar") ∧
    (bar_keywords.any (fun k => containsSub k (toLowerStr message)) = false →
      line_keywords.any (fun k => containsSub k (toLowerStr message)) = true →
      detect_chart_type message x_labels = "line") := by
  constructor
  · intro h
    simp [detect_chart_type, h]
  · intro h1 h2
    simp [detect_chart_type, h1, h2]

/-- Witness for `explicit_priority_amended` at concrete inputs with
time-shaped and category-shaped labels respectively. -/
theorem explicit_priority_witness :
    detect_chart_type "make a bar chart" ["Jan", "Feb"] = "bar" ∧
    detect_chart_type "show the trend" ["Alpha"] = "line" :=
  ⟨(explicit_priority_amended "make a bar chart" ["Jan", "Feb"]).1 (by decide),
   (explicit_priority_amended "show the trend" ["Alpha"]).2 (by decide) (by decide)⟩

/-! ## Claim C3: totality of the classification core -/

/-- Claim C3: `analyze` is total by construction (it is a Lean function)
and every run returns either a valid decision or a refusal that carries a
reason — no anomaly escapes as an exception. -/
theorem analyze_total_decision (message : String) (history : List Turn) :
    (analyze message history).is_valid = true ∨
    ((analyze message history).is_valid = false ∧
      ((analyze message history).reason).isSome = true) := by
  rcases analyze_cases message history with ⟨r, he⟩ | ⟨xs, ys, _, _, he⟩ | ⟨xs, ys, _, _, he⟩
  · right
    rw [he]
    simp [refusalData]
  · left
    rw [he]
    simp [mkStyleDecision]
  · left
    rw [he]
    simp [mkDirectDecision]

/-! ## Claim C4: year clause of time-series detection -/

/-- Claim C4 counterexample: every label of `["1995", "1996", "1997"]`
matches the claim's year pattern `^(20|19)\d{2}$`, yet `_is_time_series`
returns false (the source's pattern is `^(20\d{2})$`, so 19xx years never
satisfy the all-years clause), and without explicit keywords the classifier
returns `bar`, not `line`. -/
theorem year_clause_cex :
    (["1995", "1996", "1997"].all (fun l => spec_year_label_match (pyStrip l))) = true ∧
    is_time_series ["1995", "1996", "1997"] = false ∧
    detect_chart_type "plot this data" ["1995", "1996", "1997"] = "bar" := by
  decide

/-- Claim C4 (amended): the all-years clause uses `^(20\d{2})$`: if every
label after trimming is a 4-digit year 2000-2099 then `_is_time_series`
is true, and absent any explicit bar/line keyword the classifier returns
`line` for such labels. -/
theorem year_clause_amended (message : String) (x_labels : List String)
    (h : x_labels.all (fun label => yearLabelMatch (pyStrip label)) = true) :
    is_time_series x_labels = true ∧
    (bar_keywords.any (fun k => containsSub k (toLowerStr message)) = false →
      line_keywords.any (fun k => containsSub k (toLowerStr message)) = false →
      detect_chart_type message x_labels = "line") := by
  have hts : is_time_series x_labels = true := by
    simp [is_time_series, h]
  refine ⟨hts, fun h1 h2 => ?_⟩
  simp [detect_chart_type, h1, h2, hts]

/-- Witness for `year_clause_amended` on 20xx labels and a keyword-free
message. -/
theorem year_clause_witness :
    is_time_series ["2020", "2021"] = true ∧
    detect_chart_type "plot the data" ["2020", "2021"] = "line" := by
  have h := year_clause_amended "plot the data" ["2020", "2021"] (by decide)
  exact ⟨h.1, h.2 (by decide) (by decide)⟩

/-! ## Claim C5: color-scheme classifier rule -/

/-- Claim C5 counterexample: "show market data" contains the spec's
`fdKeywords` token "market", so the claim predicts `fd`; the source's
`fd_keywords` list does not contain "market" and the classifier returns
none. -/
theorem color_scheme_cex :
    spec_detect_color_scheme "show market data" = some "fd" ∧
    detect_color_scheme "show market data" [] = none := by
  decide

/-- Claim C5 (amended): the BNR-before-FD precedence rule holds, but over
the source's keyword lists (`bnr_keywords` = bnr, yellow, news, radio,
broadcast; `fd_keywords` = fd, teal, financial, financieele dagblad): any
BNR hit gives `bnr` (so a message with both kinds resolves to `bnr`), else
any FD hit gives `fd`, else the result is none. -/
theorem color_scheme_amended (message : String) (x_labels : List String) :
    (bnr_keywords.any (fun k => containsSub k (toLowerStr message)) = true →
      detect_color_scheme message x_labels = some "bnr") ∧
    (bnr_keywords.any (fun k => containsSub k (toLowerStr message)) = false →
      fd_keywords.any (fun k => containsSub k (toLowerStr message)) = true →
      detect_color_scheme message x_labels = some "fd") ∧
    (bnr_keywords.any (fun k => containsSub k (toLowerStr message)) = false →
      fd_keywords.any (fun k => containsSub k (toLowerStr message)) = false →
      detect_color_scheme message x_labels = none) := by
  refine ⟨fun h => ?_, fun h1 h2 => ?_, fun h1 h2 => ?_⟩
  · simp [detect_color_scheme, h]
  · simp [detect_color_scheme, h1, h2]
  · simp [detect_color_scheme, h1, h2]

/-- Witness for `color_scheme_amended`: a message with both a BNR and an FD
keyword resolves to bnr, an FD-only message to fd, a neutral message to
none. -/
theorem color_scheme_witness :
    detect_color_scheme "teal bnr chart" [] = some "bnr" ∧
    detect_color_scheme "teal please" [] = some "fd" ∧
    detect_color_scheme "hello" [] = none :=
  ⟨(color_scheme_amended "teal bnr chart" []).1 (by decide),
   (color_scheme_amended "teal please" []).2.1 (by decide) (by decide),
   (color_scheme_amended "hello" []).2.2 (by decide) (by decide)⟩

/-! ## Claim C9: refusals carry no chart payload -/

/-- Claim C9: whenever `analyze` returns `is_valid = false`, the decision
carries a reason and every chart field keeps its `None` default. -/
theorem refusal_no_payload (message : String) (history : List Turn)
    (h : (analyze message history).is_valid = false) :
    ((analyze message history).reason).isSome = true ∧
    (analyze message history).chart_type = none ∧
    (analyze message history).title = none ∧
    (analyze message history).x_label = none ∧
    (analyze message history).y_label = none ∧
    (analyze message history).x_labels = none ∧
    (analyze message history).y_values = none ∧
    (analyze message history).color_scheme = none := by
  rcases analyze_cases message history with ⟨r, he⟩ | ⟨xs, ys, _, _, he⟩ | ⟨xs, ys, _, _, he⟩
  · rw [he]
    simp [refusalData]
  · rw [he] at h
    simp [mkStyleDecision] at h
  · rw [he] at h
    simp [mkDirectDecision] at h

/-- Witness for `refusal_no_payload` at the refused weather question. -/
theorem refusal_no_payload_witness :
    ((analyze "What's the weather today?" []).reason).isSome = true ∧
    (analyze "What's the weather today?" []).chart_type = none ∧
    (analyze "What's the weather today?" []).title = none ∧
    (analyze "What's the weather today?" []).x_label = none ∧
    (analyze "What's the weather today?" []).y_label = none ∧
    (analyze "What's the weather today?" []).x_labels = none ∧
    (analyze "What's the weather today?" []).y_values = none ∧
    (analyze "What's the weather today?" []).color_scheme = none :=
  refusal_no_payload "What's the weather today?" [] (by decide)

/-! ## Claim C10: empty labels can pass extraction -/

/-- Claim C10: on the message "a=1, =2" the extractor succeeds with two
pairs, the second label trims to the empty string, and `analyze` returns a
valid decision whose `x_labels` contains the empty string. -/
theorem empty_label_extraction :
    extract_data_pairs "a=1, =2" = some (["a", ""], [1, 2]) ∧
    (analyze "a=1, =2" []).is_valid = true ∧
    (analyze "a=1, =2" []).x_labels = some ["a", ""] := by
  decide

/-! ## Claim C2: style-change recall -/

/-- Turns that are not assistant turns with both metadata keys are skipped
by the assistant-metadata loop. -/
theorem findPrevAssistantMeta_append (l1 l2 : List Turn)
    (h : ∀ u ∈ l1, u.role = "assistant" → ∀ m, u.metadata = some m →
      m.x_labels = none ∨ m.y_values = none) :
    findPrevAssistantMeta (l1 ++ l2) = findPrevAssistantMeta l2 := by
  induction l1 with
  | nil => rfl
  | cons u rest ih =>
    have hrest : ∀ u' ∈ rest, u'.role = "assistant" → ∀ m, u'.metadata = some m →
        m.x_labels = none ∨ m.y_values = none :=
      fun u' hu' => h u' (List.mem_cons_of_mem _ hu')
    have hu := h u (List.mem_cons_self u rest)
    rw [List.cons_append, findPrevAssistantMeta]
    by_cases hrole : u.role = "assistant"
    · rw [if_pos hrole]
      cases hmeta : u.metadata with
      | none =>
        simp only [hmeta]
        exact ih hrest
      | some m =>
        simp only [hmeta]
        cases hx : m.x_labels with
        | none =>
          simp only [hx]
          exact ih hrest
        | some xs =>
          cases hy : m.y_values with
          | none =>
            simp only [hx, hy]
            exact ih hrest
          | some ys =>
            rcases hu hrole m hmeta with h' | h'
            · rw [hx] at h'
              exact absurd h' (by simp)
            · rw [hy] at h'
              exact absurd h' (by simp)
    · rw [if_neg hrole]
      exact ih hrest

/-- Claim C2: for any history split as `pre ++ t :: post` where `t` is an
assistant turn storing the quarterly metadata and no turn of `post` is an
assistant turn with both metadata keys, the message "Could you create it in
BNR colors?" yields a valid decision with the recalled data and the bnr
color scheme. -/
theorem style_change_recall (pre post : List Turn) (t : Turn)
    (hrole : t.role = "assistant")
    (hmeta : t.metadata = some ⟨some ["Q1", "Q2", "Q3", "Q4"], some [100, 150, 200, 175]⟩)
    (hpost : ∀ u ∈ post, u.role = "assistant" → ∀ m, u.metadata = some m →
      m.x_labels = none ∨ m.y_values = none) :
    (analyze "Could you create it in BNR colors?" (pre ++ t :: post)).is_valid = true ∧
    (analyze "Could you create it in BNR colors?" (pre ++ t :: post)).x_labels
      = some ["Q1", "Q2", "Q3", "Q4"] ∧
    (analyze "Could you create it in BNR colors?" (pre ++ t :: post)).y_values
      = some [100, 150, 200, 175] ∧
    (analyze "Could you create it in BNR colors?" (pre ++ t :: post)).color_scheme
      = some "bnr" := by
  have h1 : should_refuse "Could you create it in BNR colors?" = false := by decide
  have h2 : is_style_change_request "Could you create it in BNR colors?" = true := by decide
  have hprev : get_previous_chart_data (pre ++ t :: post)
      = some (["Q1", "Q2", "Q3", "Q4"], [100, 150, 200, 175]) := by
    unfold get_previous_chart_data
    rw [if_neg (by simp)]
    rw [List.reverse_append, List.reverse_cons, List.append_assoc]
    rw [findPrevAssistantMeta_append post.reverse ([t] ++ pre.reverse)
      (fun u hu => hpost u (List.mem_reverse.mp hu))]
    rw [List.singleton_append, findPrevAssistantMeta, if_pos hrole]
    simp only [hmeta]
  have hana : analyze "Could you create it in BNR colors?" (pre ++ t :: post)
      = mkStyleDecision "Could you create it in BNR colors?"
          ["Q1", "Q2", "Q3", "Q4"] [100, 150, 200, 175] := by
    simp [analyze, h1, h2, hprev]
  refine ⟨?_, ?_, ?_, ?_⟩ <;> rw [hana]
  · rfl
  · rfl
  · rfl
  · decide

/-- Witness for `style_change_recall` on a one-turn history. -/
theorem style_change_recall_witness :
    (analyze "Could you create it in BNR colors?"
      [{ role := "assistant", content := "Here is your chart",
         metadata := some { x_labels := some ["Q1", "Q2", "Q3", "Q4"],
                            y_values := some [100, 150, 200, 175] } }]).is_valid = true ∧
    (analyze "Could you create it in BNR colors?"
      [{ role := "assistant", content := "Here is your chart",
         metadata := some { x_labels := some ["Q1", "Q2", "Q3", "Q4"],
                            y_values := some [100, 150, 200, 175] } }]).x_labels
      = some ["Q1", "Q2", "Q3", "Q4"] ∧
    (analyze "Could you create it in BNR colors?"
      [{ role := "assistant", content := "Here is your chart",
         metadata := some { x_labels := some ["Q1", "Q2", "Q3", "Q4"],
                            y_values := some [100, 150, 200, 175] } }]).y_values
      = some [100, 150, 200, 175] ∧
    (analyze "Could you create it in BNR colors?"
      [{ role := "assistant", content := "Here is your chart",
         metadata := some { x_labels := some ["Q1", "Q2", "Q3", "Q4"],
                            y_values := some [100, 150, 200, 175] } }]).color_scheme
      = some "bnr" := by
  have h := style_change_recall []
    [] { role := "assistant", content := "Here is your chart",
         metadata := some { x_labels := some ["Q1", "Q2", "Q3", "Q4"],
                            y_values := some [100, 150, 200, 175] } }
    rfl rfl (by simp)
  simpa using h

/-! ## Claim C6: axis-label synthesis -/

/-- Claim C6 counterexample: "line chart please: a=1, b=2" is classified
as a line chart, yet the direct-extraction path sets the x-axis label to
"Category" (it keys the label off `_is_time_series`, not the chart type),
while the claim demands "Time" for every valid line decision. -/
theorem axis_label_cex :
    (analyze "line chart please: a=1, b=2" []).is_valid = true ∧
    (analyze "line chart please: a=1, b=2" []).chart_type = some "line" ∧
    (analyze "line chart please: a=1, b=2" []).x_label = some "Category" := by
  decide

/-- Claim C6 (amended): every valid decision has y-axis label "Value"; on
the style-change path the x-axis label is keyed by the chart type
("Category" for bar, else "Time"), while on the direct-extraction path it
is "Time" exactly when the extracted labels form a time series, regardless
of the chart type. -/
theorem axis_label_amended (message : String) (history : List Turn)
    (hvalid : (analyze message history).is_valid = true) :
    (analyze message history).y_label = some "Value" ∧
    (is_style_change_request message = true →
      (analyze message history).x_label =
        some (if (analyze message history).chart_type = some "bar" then "Category" else "Time")) ∧
    (is_style_change_request message = false →
      ∃ xs, (analyze message history).x_labels = some xs ∧
        (analyze message history).x_label =
          some (if is_time_series xs = true then "Time" else "Category")) := by
  rcases analyze_cases message history with ⟨r, he⟩ | ⟨xs, ys, hsc, hprev, he⟩ |
    ⟨xs, ys, hsc, hsrc, he⟩
  · rw [he] at hvalid
    simp [refusalData] at hvalid
  · rw [he]
    refine ⟨rfl, fun _ => ?_, fun hc => ?_⟩
    · by_cases hdt : detect_chart_type message xs = "bar" <;>
        simp [mkStyleDecision, hdt]
    · rw [hsc] at hc
      cases hc
  · rw [he]
    refine ⟨rfl, fun hc => ?_, fun _ => ⟨xs, rfl, ?_⟩⟩
    · rw [hsc] at hc
      cases hc
    · by_cases hts : is_time_series xs = true <;>
        simp [mkDirectDecision, hts]

/-- Witness for `axis_label_amended` at a direct-extraction decision. -/
theorem axis_label_witness :
    (analyze "a=1, b=2" []).y_label = some "Value" :=
  (axis_label_amended "a=1, b=2" [] (by decide)).1

/-! ## Claim C7: length invariant -/

/-- Claim C7: assuming every assistant metadata entry carrying both keys
stores equally long lists, every valid decision satisfies
`len(x_labels) = len(y_values)`, whichever source the data came from. -/
theorem length_invariant (message : String) (history : List Turn)
    (hm : ∀ t ∈ history, ∀ m, t.metadata = some m → ∀ xs ys,
      m.x_labels = some xs → m.y_values = some ys → xs.length = ys.length)
    (hvalid : (analyze message history).is_valid = true)
    (xs : List String) (ys : List ℚ)
    (hx : (analyze message history).x_labels = some xs)
    (hy : (analyze message history).y_values = some ys) :
    xs.length = ys.length := by
  rcases analyze_cases message history with ⟨r, he⟩ | ⟨xs', ys', hsc, hprev, he⟩ |
    ⟨xs', ys', hsc, hsrc, he⟩
  · rw [he] at hx
    simp [refusalData] at hx
  · rw [he] at hx hy
    simp only [mkStyleDecision, Option.some.injEq] at hx hy
    subst hx; subst hy
    exact get_previous_chart_data_length history hm _ _ hprev
  · rw [he] at hx hy
    simp only [mkDirectDecision, Option.some.injEq] at hx hy
    subst hx; subst hy
    rcases hsrc with hext | hprev
    · exact extract_data_pairs_length _ _ _ hext
    · exact get_previous_chart_data_length history hm _ _ hprev

/-- Witness for `length_invariant` on a direct extraction. -/
theorem length_invariant_witness :
    (analyze "a=1, b=2" []).x_labels = some ["a", "b"] ∧
    (analyze "a=1, b=2" []).y_values = some [1, 2] ∧
    (["a", "b"] : List String).length = ([1, 2] : List ℚ).length :=
  ⟨by decide, by decide,
   length_invariant "a=1, b=2" [] (by simp) (by decide) ["a", "b"] [1, 2]
     (by decide) (by decide)⟩

/-! ## Claim C8: renderer smart sampling -/

/-- Closed form of the sampling while-loop: starting at `c` it emits the
arithmetic progression `c, c+step, ...` of all values below `n - 1`. -/
theorem sampleLoopGo_closed (step : Nat) (hstep : 0 < step) :
    ∀ fuel n c, n - 1 - c ≤ fuel →
      sampleLoopGo fuel n step c
        = List.range' c (if c < n - 1 then (n - 2 - c) / step + 1 else 0) step := by
  intro fuel
  induction fuel with
  | zero =>
    intro n c hf
    have hc : ¬ c < n - 1 := by omega
    simp [sampleLoopGo, hc]
  | succ f ih =>
    intro n c hf
    by_cases hc : c < n - 1
    · rw [sampleLoopGo, if_pos hc, ih n (c + step) (by omega), if_pos hc]
      by_cases hcs : c + step < n - 1
      · rw [if_pos hcs]
        have hle : step ≤ n - 2 - c := by omega
        have hnum : n - 2 - c - step = n - 2 - (c + step) := by omega
        have hdiv : (n - 2 - c) / step = (n - 2 - (c + step)) / step + 1 := by
          rw [Nat.div_eq (n - 2 - c) step, if_pos ⟨hstep, hle⟩, hnum]
        rw [hdiv]
        conv_rhs => rw [List.range'_succ]
      · rw [if_neg hcs]
        have hlt : n - 2 - c < step := by omega
        rw [Nat.div_eq_of_lt hlt]
        conv_rhs => rw [List.range'_succ]
    · rw [sampleLoopGo, if_neg hc, if_neg hc]
      simp

/-- Every index emitted by the while-loop is below `n - 1`. -/
theorem sampleLoopGo_mem_lt (n step x : Nat) :
    ∀ fuel c, x ∈ sampleLoopGo fuel n step c → x < n - 1 := by
  intro fuel
  induction fuel with
  | zero =>
    intro c hx
    simp [sampleLoopGo] at hx
  | succ f ih =>
    intro c hx
    by_cases hc : c < n - 1
    · rw [sampleLoopGo, if_pos hc] at hx
      rcases List.mem_cons.mp hx with h | h
      · omega
      · exact ih _ h
    · rw [sampleLoopGo, if_neg hc] at hx
      simp at hx

/-- An arithmetic progression with positive step is strictly increasing. -/
theorem pairwise_lt_range_step (step : Nat) (hstep : 0 < step) :
    ∀ k s, List.Pairwise (· < ·) (List.range' s k step) := by
  intro k
  induction k with
  | zero =>
    intro s
    simp
  | succ k ih =>
    intro s
    rw [List.range'_succ]
    refine List.pairwise_cons.mpr ⟨?_, ih (s + step)⟩
    intro b hb
    rcases List.mem_range'.mp hb with ⟨i, hi, rfl⟩
    have hnn : 0 ≤ step * i := Nat.zero_le _
    omega

/-- The intermediate sampled indices stay at most `n - 2`. -/
theorem range_inter_le (n step x : Nat) (hstep : 0 < step)
    (hx : x ∈ List.range' step ((n - 2) / step) step) : x ≤ n - 2 := by
  rcases List.mem_range'.mp hx with ⟨i, hi, rfl⟩
  have h1 : i + 1 ≤ (n - 2) / step := hi
  have h2 : (i + 1) * step ≤ (n - 2) / step * step := Nat.mul_le_mul_right step h1
  have h3 : (n - 2) / step * step ≤ n - 2 := Nat.div_mul_le_self _ _
  have h4 : (i + 1) * step = step + step * i := by ring
  omega

/-- The last element of `[0]` extended by the loop output never equals
`n - 1`, so the source always appends the final index. -/
theorem getLastD_mem {α : Type} (l : List α) (d : α) (hne : l ≠ []) : l.getLastD d ∈ l := by
  induction l generalizing d with
  | nil => exact absurd rfl hne
  | cons a l2 ih =>
    cases l2 with
    | nil => simp [List.getLastD]
    | cons b l3 =>
      rw [List.getLastD_cons]
      exact List.mem_cons_of_mem _ (ih a (by simp))

/-- Claim C8: with a positive cap, the sampled index list keeps all `n`
indices when `n ≤ cap`; when `n > cap` it is exactly index `0`, then the
arithmetic progression with step `max 1 (n / cap)`, then index `n - 1` —
in particular it contains `0` and `n - 1` and is strictly increasing. -/
theorem sampling_round_trip (x_labels : List String) (y_values : List ℚ) (cap : Nat)
    (hcap : 0 < cap) :
    (x_labels.length ≤ cap →
      (smart_sample_labels x_labels y_values cap).2.2 = List.range x_labels.length) ∧
    (cap < x_labels.length →
      (smart_sample_labels x_labels y_values cap).2.2
        = 0 :: List.range' (max 1 (x_labels.length / cap))
            ((x_labels.length - 2) / max 1 (x_labels.length / cap))
            (max 1 (x_labels.length / cap))
          ++ [x_labels.length - 1] ∧
      0 ∈ (smart_sample_labels x_labels y_values cap).2.2 ∧
      x_labels.length - 1 ∈ (smart_sample_labels x_labels y_values cap).2.2 ∧
      List.Pairwise (· < ·) (smart_sample_labels x_labels y_values cap).2.2) := by
  constructor
  · intro h
    simp [smart_sample_labels, h]
  · intro h
    have hn2 : 2 ≤ x_labels.length := by omega
    have hnle : ¬ x_labels.length ≤ cap := by omega
    have hstep : 0 < max 1 (x_labels.length / cap) := by omega
    have hinter : sampleLoopGo x_labels.length x_labels.length
        (max 1 (x_labels.length / cap)) (max 1 (x_labels.length / cap))
        = List.range' (max 1 (x_labels.length / cap))
            ((x_labels.length - 2) / max 1 (x_labels.length / cap))
            (max 1 (x_labels.length / cap)) := by
      rw [sampleLoopGo_closed (max 1 (x_labels.length / cap)) hstep x_labels.length
        x_labels.length (max 1 (x_labels.length / cap)) (by omega)]
      by_cases hc : max 1 (x_labels.length / cap) < x_labels.length - 1
      · rw [if_pos hc]
        have hle : max 1 (x_labels.length / cap) ≤ x_labels.length - 2 := by omega
        rw [Nat.div_eq (x_labels.length - 2) (max 1 (x_labels.length / cap)),
          if_pos ⟨hstep, hle⟩]
      · rw [if_neg hc]
        have hlt : x_labels.length - 2 < max 1 (x_labels.length / cap) := by omega
        rw [Nat.div_eq_of_lt hlt]
    have hlast : (0 :: sampleLoopGo x_labels.length x_labels.length
        (max 1 (x_labels.length / cap)) (max 1 (x_labels.length / cap))).getLastD 0
        ≠ x_labels.length - 1 := by
      cases hI : sampleLoopGo x_labels.length x_labels.length
          (max 1 (x_labels.length / cap)) (max 1 (x_labels.length / cap)) with
      | nil =>
        simp only [List.getLastD_cons, List.getLastD_nil]
        omega
      | cons a l =>
        rw [List.getLastD_cons]
        have hmem : (a :: l).getLastD 0 ∈ a :: l := getLastD_mem _ _ (by simp)
        have hmem2 : (a :: l).getLastD 0 ∈ sampleLoopGo x_labels.length x_labels.length
            (max 1 (x_labels.length / cap)) (max 1 (x_labels.length / cap)) := by
          rw [hI]
          exact hmem
        have hlt := sampleLoopGo_mem_lt x_labels.length (max 1 (x_labels.length / cap))
          ((a :: l).getLastD 0) x_labels.length (max 1 (x_labels.length / cap)) hmem2
        omega
    have hfinal : (smart_sample_labels x_labels y_values cap).2.2
        = 0 :: (sampleLoopGo x_labels.length x_labels.length
            (max 1 (x_labels.length / cap)) (max 1 (x_labels.length / cap))
          ++ [x_labels.length - 1]) := by
      simp only [smart_sample_labels]
      rw [if_neg hnle]
      dsimp only
      rw [if_pos hlast, List.cons_append]
    rw [hfinal, hinter]
    refine ⟨rfl, ?_, ?_, ?_⟩
    · simp
    · simp
    · refine List.pairwise_cons.mpr ⟨?_, ?_⟩
      · intro b hb
        rcases List.mem_append.mp hb with h' | h'
        · rcases List.mem_range'.mp h' with ⟨i, hi, rfl⟩
          have hnn : 0 ≤ max 1 (x_labels.length / cap) * i := Nat.zero_le _
          omega
        · simp at h'
          omega
      · refine List.pairwise_append.mpr
          ⟨pairwise_lt_range_step _ hstep _ _, ?_, ?_⟩
        · simp
        · intro a ha b hb
          simp at hb
          subst hb
          have hle2 := range_inter_le x_labels.length _ a hstep ha
          omega

/-- Witness for `sampling_round_trip` at 31 labels and the renderer's cap
of 30: the sampled indices are `0, 1, ..., 29, 30`. -/
theorem sampling_round_trip_witness :
    (smart_sample_labels (List.replicate 31 "x") (List.replicate 31 (0 : ℚ)) 30).2.2
      = 0 :: List.range' 1 29 1 ++ [30] ∧
    0 ∈ (smart_sample_labels (List.replicate 31 "x") (List.replicate 31 (0 : ℚ)) 30).2.2 ∧
    30 ∈ (smart_sample_labels (List.replicate 31 "x") (List.replicate 31 (0 : ℚ)) 30).2.2 ∧
    List.Pairwise (· < ·)
      (smart_sample_labels (List.replicate 31 "x") (List.replicate 31 (0 : ℚ)) 30).2.2 := by
  have h := (sampling_round_trip (List.replicate 31 "x") (List.replicate 31 (0 : ℚ)) 30
    (by norm_num)).2 (by simp)
  simpa using h
